import Mathlib

/-!
Verification of the client-side coordination primitives of the portfolio
repository: the resource-preload cache (`usePreload.preloadImage` in
`src/hooks/usePerformance.ts`), the throttle and debounce wrappers
(`useThrottle`, `useDebounce`), the virtual-scroll window computation
(`useVirtualScroll.getVisibleRange`), the focus trap (`trapFocus` in the
accessibility hooks), and the screen-reader announcer (`announce`,
`clearAnnouncements`).

The browser code is single-threaded and event-driven, so every stateful hook
is embedded as an explicit state machine: each promise callback, timer firing
and user call is an event, and the hook body becomes a pure transition
function on an explicit state record.  Times are naturals (milliseconds),
JS numbers that only ever hold integers are embedded as `Int` (with
`Int.fdiv` for `Math.floor` of a quotient), and DOM nodes are identified by
numeric ids.
-/

/-! ### Resource preload cache (`usePreload` in `src/hooks/usePerformance.ts`)

State of the cache: `loaded` embeds the `loadedResources` set, `inflight`
maps each key of the `loadingResources` set to the caller whose `new Image()`
carries the in-flight load (its `onload`/`onerror` resolve or reject exactly
that caller's promise), `waiters` are callers whose `checkLoaded` polling
loop is active, `loads` is the log of underlying loads issued (each
`img.src = src` assignment), and `outcomes` records settled promises as
`(caller, success?)`.  Requests read the committed React state
(`useCallback` recreates `preloadImage` whenever `loadedResources` or
`loadingResources` commits), but a waiting caller's `checkLoaded` closure
keeps the `Set` object it captured when the waiting branch ran: state
updates replace that `Set` (`new Set(prev).add(src)`) and never mutate the
captured object, so every later poll consults the stale snapshot, which is
passed to `pollWaiter` below as `capturedLoaded`. -/

structure CacheState where
  loaded : List String
  inflight : List (String × Nat)
  waiters : List (Nat × String)
  loads : List (Nat × String)
  outcomes : List (Nat × Bool)
deriving DecidableEq

def initCache : CacheState := ⟨[], [], [], [], []⟩

/-- First-match association lookup, as a `Set.has`-style query on the
in-flight map. -/
def lookupKey : List (String × Nat) → String → Option Nat
  | [], _ => none
  | (k', c) :: rest, k => if k' = k then some c else lookupKey rest k

/-- Number of entries for a key in the in-flight map. -/
def countKey : List (String × Nat) → String → Nat
  | [], _ => 0
  | (k', _) :: rest, k => (if k' = k then 1 else 0) + countKey rest k

/-- Removal of a key, embedding `Set.delete(src)` on `loadingResources`. -/
def removeKey : List (String × Nat) → String → List (String × Nat)
  | [], _ => []
  | (k', c) :: rest, k => if k' = k then removeKey rest k else (k', c) :: removeKey rest k

/-- One call of `preloadImage(src)` by caller `c`: if the key is loaded the
promise resolves at once; if it is loading the caller enters the
`checkLoaded` polling loop; otherwise the key is marked loading and an
underlying image load is issued. -/
def preloadImage (s : CacheState) (c : Nat) (k : String) : CacheState :=
  if k ∈ s.loaded then
    { s with outcomes := s.outcomes ++ [(c, true)] }
  else if (lookupKey s.inflight k).isSome then
    { s with waiters := s.waiters ++ [(c, k)] }
  else
    { s with inflight := s.inflight ++ [(k, c)], loads := s.loads ++ [(c, k)] }

/-- Settlement of the underlying image load for `k`: `img.onload` (when `ok`)
adds the key to `loadedResources`, removes it from `loadingResources` and
resolves the initiating caller's promise; `img.onerror` removes the key from
`loadingResources` and rejects the initiating caller's promise.  Nothing in
either handler touches the polling waiters. -/
def settleLoad (s : CacheState) (k : String) (ok : Bool) : CacheState :=
  match lookupKey s.inflight k with
  | none => s
  | some c =>
    if ok then
      { s with loaded := s.loaded ++ [k],
               inflight := removeKey s.inflight k,
               outcomes := s.outcomes ++ [(c, true)] }
    else
      { s with inflight := removeKey s.inflight k,
               outcomes := s.outcomes ++ [(c, false)] }

/-- One firing of a waiting caller's `checkLoaded` timer.  The closure tests
`loadedResources.has(src)` on `capturedLoaded`, the `Set` object it captured
when the waiting branch ran — not the current committed state, because state
updates replace the `Set` and never mutate the captured object.  If the
captured set has the key the promise resolves; otherwise the timer is
re-armed and nothing changes.  Since the waiting branch only runs when the
captured set lacks the key, for every real waiter the test is false at every
firing. -/
def pollWaiter (s : CacheState) (capturedLoaded : List String) (c : Nat) (k : String) :
    CacheState :=
  if k ∈ capturedLoaded then
    { s with waiters := s.waiters.erase (c, k), outcomes := s.outcomes ++ [(c, true)] }
  else s

/-- Events of the cache's event loop. -/
inductive CacheEvent where
  | request (c : Nat) (k : String)
  | settle (k : String) (ok : Bool)
  | poll (c : Nat) (k : String) (capturedLoaded : List String)
deriving DecidableEq

def cacheStep (s : CacheState) : CacheEvent → CacheState
  | .request c k => preloadImage s c k
  | .settle k ok => settleLoad s k ok
  | .poll c k cap => pollWaiter s cap c k

def runCache (s : CacheState) (es : List CacheEvent) : CacheState :=
  es.foldl cacheStep s

/-! ### Throttle (`useThrottle` in `src/hooks/usePerformance.ts`)

The wrapper's state is `lastCall` (the ref initialised to `0`) and the at
most one pending trailing timer (`timeoutRef`), stored as its absolute fire
time and the argument it captured.  A call at time `t` executes immediately
when `t - lastCall ≥ d`, otherwise it replaces the pending timer with one
firing `d - (t - lastCall)` later.  The timer callback sets `lastCall` to
the fire time and executes with the captured argument. -/

structure ThrottleState where
  lastCall : Nat
  pending : Option (Nat × Nat)
deriving DecidableEq

/-- The body of the function returned by `useThrottle`, for one call at
absolute time `t` with argument `a`.  Returns the new state and the
executions (time, argument) the call performs synchronously. -/
def throttleCall (d : Nat) (s : ThrottleState) (t a : Nat) : ThrottleState × List (Nat × Nat) :=
  if d ≤ t - s.lastCall then
    ({ s with lastCall := t }, [(t, a)])
  else
    ({ s with pending := some (t + (d - (t - s.lastCall)), a) }, [])

/-- Fire the pending trailing timer if its time has come by time `t`. -/
def fireDue (s : ThrottleState) (t : Nat) : ThrottleState × List (Nat × Nat) :=
  match s.pending with
  | some (ft, a) => if ft ≤ t then (⟨ft, none⟩, [(ft, a)]) else (s, [])
  | none => (s, [])

/-- Event-loop simulation of a time-sorted list of calls to the throttled
function: before each call any due trailing timer fires, and after the last
call the remaining trailing timer (if any) fires at its scheduled time. -/
def throttleRun (d : Nat) : ThrottleState → List (Nat × Nat) → List (Nat × Nat)
  | s, [] =>
    match s.pending with
    | some (ft, a) => [(ft, a)]
    | none => []
  | s, (t, a) :: rest =>
    let fd := fireDue s t
    let tc := throttleCall d fd.1 t a
    fd.2 ++ tc.2 ++ throttleRun d tc.1 rest

/-! ### Debounce (`useDebounce` in `src/hooks/usePerformance.ts`)

`useDebounce` schedules `setDebouncedValue(value)` on a fresh timer whenever
the value changes and clears the previous timer in the effect cleanup.  The
state is the at most one pending timer (fire time, value).  The simulation
processes a time-sorted list of value changes: a pending timer that is
already due fires before the change is processed, otherwise it is cleared
and replaced. -/

def debounceRun (d : Nat) : Option (Nat × Nat) → List (Nat × Nat) → List (Nat × Nat)
  | pending, [] =>
    match pending with
    | some p => [p]
    | none => []
  | pending, (t, v) :: rest =>
    (match pending with
     | some (ft, fv) => if ft ≤ t then [(ft, fv)] else []
     | none => []) ++ debounceRun d (some (t + d, v)) rest

/-! ### Virtual scrolling (`useVirtualScroll` in `src/hooks/usePerformance.ts`) -/

structure VirtualScrollInput where
  itemCount : Int
  itemHeight : Int
  containerHeight : Int
  overscan : Int
deriving DecidableEq

/-- The `getVisibleRange` computation of `useVirtualScroll`:
`startIndex = max(0, floor(scrollTop / itemHeight) - overscan)` and
`endIndex = min(itemCount - 1, min(itemCount - 1,
floor((scrollTop + containerHeight) / itemHeight)) + overscan)`.
`Math.floor` of the quotient is `Int.fdiv`. -/
def getVisibleRange (p : VirtualScrollInput) (scrollTop : Int) : Int × Int :=
  (max 0 (Int.fdiv scrollTop p.itemHeight - p.overscan),
   min (p.itemCount - 1)
     (min (p.itemCount - 1) (Int.fdiv (scrollTop + p.containerHeight) p.itemHeight)
       + p.overscan))

def totalHeight (p : VirtualScrollInput) : Int := p.itemCount * p.itemHeight

def offsetY (p : VirtualScrollInput) (scrollTop : Int) : Int :=
  (getVisibleRange p scrollTop).1 * p.itemHeight

/-! ### Focus trap (`trapFocus` in the accessibility hooks file) -/

structure KeyboardEvent where
  key : String
  shiftKey : Bool
deriving DecidableEq

structure FocusState where
  focusableElements : List Nat
  activeElement : Option Nat
deriving DecidableEq

/-- Result of one `trapFocus` call: whether `event.preventDefault()` was
called, and the element focus was redirected to (if any). -/
structure TrapResult where
  defaultPrevented : Bool
  focused : Option Nat
deriving DecidableEq

/-- The `trapFocus` handler: non-Tab keys are ignored; with an empty
focusable list the event is only prevented; Shift+Tab on the first element
wraps to the last (`focusLast`), plain Tab on the last element wraps to the
first (`focusFirst`); any other Tab event is left to the browser. -/
def trapFocus (s : FocusState) (e : KeyboardEvent) : TrapResult :=
  if e.key ≠ "Tab" then ⟨false, none⟩
  else if s.focusableElements.length = 0 then ⟨true, none⟩
  else if e.shiftKey then
    if s.activeElement = s.focusableElements.head? then
      ⟨true, s.focusableElements.getLast?⟩
    else ⟨false, none⟩
  else
    if s.activeElement = s.focusableElements.getLast? then
      ⟨true, s.focusableElements.head?⟩
    else ⟨false, none⟩

/-! ### Screen-reader announcer (`useScreenReader` in the accessibility hooks file)

`announce` appends the message to the `announcements` state list and creates
a fresh `aria-live` div (a live region) appended to `document.body`, to be
removed by a timer 1000 ms later.  Live regions are identified by a counter
so that distinct DOM nodes stay distinct in the model. -/

structure LiveRegion where
  id : Nat
  ariaLive : String
  textContent : String
  removeAt : Nat
deriving DecidableEq

structure ScreenReaderState where
  announcements : List String
  liveRegions : List LiveRegion
  nextId : Nat
deriving DecidableEq

/-- One `announce(message, priority)` call at time `now`. -/
def announce (s : ScreenReaderState) (now : Nat) (message priority : String) :
    ScreenReaderState :=
  { announcements := s.announcements ++ [message],
    liveRegions := s.liveRegions ++ [⟨s.nextId, priority, message, now + 1000⟩],
    nextId := s.nextId + 1 }

/-- Firing of every removal timer due by time `now`
(`document.body.removeChild(liveRegion)` after the 1000 ms delay). -/
def elapseTo (s : ScreenReaderState) (now : Nat) : ScreenReaderState :=
  { s with liveRegions := s.liveRegions.filter (fun r => now < r.removeAt) }

/-- The `clearAnnouncements` callback: resets the announcements list. -/
def clearAnnouncements (s : ScreenReaderState) : ScreenReaderState :=
  { s with announcements := [] }

/-- Operations a client can interleave on the screen-reader hook state. -/
inductive ScreenReaderOp where
  | announceOp (now : Nat) (message : String) (priority : String)
  | elapseOp (now : Nat)
  | clearOp
deriving DecidableEq

def applyOp (s : ScreenReaderState) : ScreenReaderOp → ScreenReaderState
  | .announceOp n m p => announce s n m p
  | .elapseOp n => elapseTo s n
  | .clearOp => clearAnnouncements s

def runOps (s : ScreenReaderState) (ops : List ScreenReaderOp) : ScreenReaderState :=
  ops.foldl applyOp s

/-! ## Helper lemmas -/

theorem lookupKey_none_countKey (l : List (String × Nat)) (k : String)
    (h : lookupKey l k = none) : countKey l k = 0 := by
  induction l with
  | nil => rfl
  | cons hd tl ih =>
    obtain ⟨k', c⟩ := hd
    by_cases hk : k' = k
    · simp [lookupKey, hk] at h
    · simp only [lookupKey, if_neg hk] at h
      simp [countKey, if_neg hk, ih h]

theorem countKey_append (l₁ l₂ : List (String × Nat)) (k : String) :
    countKey (l₁ ++ l₂) k = countKey l₁ k + countKey l₂ k := by
  induction l₁ with
  | nil => simp [countKey]
  | cons hd tl ih =>
    obtain ⟨k', c⟩ := hd
    show (if k' = k then 1 else 0) + countKey (tl ++ l₂) k =
      ((if k' = k then 1 else 0) + countKey tl k) + countKey l₂ k
    rw [ih]
    omega

theorem countKey_removeKey_self (l : List (String × Nat)) (k : String) :
    countKey (removeKey l k) k = 0 := by
  induction l with
  | nil => rfl
  | cons hd tl ih =>
    obtain ⟨k', c⟩ := hd
    by_cases hk : k' = k
    · simp [removeKey, hk, ih]
    · simp [removeKey, countKey, if_neg hk, ih]

theorem lookupKey_removeKey_self (l : List (String × Nat)) (k : String) :
    lookupKey (removeKey l k) k = none := by
  induction l with
  | nil => rfl
  | cons hd tl ih =>
    obtain ⟨k', c⟩ := hd
    by_cases hk : k' = k
    · simp [removeKey, hk, ih]
    · simp [removeKey, lookupKey, if_neg hk, ih]

theorem countKey_removeKey_le (l : List (String × Nat)) (k k' : String) :
    countKey (removeKey l k) k' ≤ countKey l k' := by
  induction l with
  | nil => exact Nat.le_refl _
  | cons hd tl ih =>
    obtain ⟨k₀, c⟩ := hd
    by_cases hk : k₀ = k
    · simp only [removeKey, if_pos hk, countKey]
      omega
    · simp only [removeKey, if_neg hk, countKey]
      omega

/-- At-most-one-in-flight-load-per-key invariant of the cache. -/
def inflightInv (s : CacheState) : Prop := ∀ k, countKey s.inflight k ≤ 1

theorem inflightInv_step (s : CacheState) (e : CacheEvent) (h : inflightInv s) :
    inflightInv (cacheStep s e) := by
  cases e with
  | request c k =>
    simp only [cacheStep, preloadImage]
    split_ifs with h1 h2
    · exact h
    · exact h
    · intro k'
      have hz : countKey s.inflight k = 0 := by
        apply lookupKey_none_countKey
        cases hl : lookupKey s.inflight k with
        | none => rfl
        | some c' => rw [hl] at h2; simp at h2
      rw [countKey_append]
      by_cases hk : k = k'
      · subst hk
        simp [countKey, hz]
      · have : countKey [(k, c)] k' = 0 := by simp [countKey, if_neg hk]
        rw [this]
        exact h k'
  | settle k ok =>
    simp only [cacheStep, settleLoad]
    cases hl : lookupKey s.inflight k with
    | none => exact h
    | some c =>
      split_ifs with hok
      · intro k'
        exact Nat.le_trans (countKey_removeKey_le s.inflight k k') (h k')
      · intro k'
        exact Nat.le_trans (countKey_removeKey_le s.inflight k k') (h k')
  | poll c k cap =>
    simp only [cacheStep, pollWaiter]
    split_ifs <;> exact h

theorem inflightInv_runCache (es : List CacheEvent) : inflightInv (runCache initCache es) := by
  have key : ∀ (l : List CacheEvent) (s : CacheState), inflightInv s →
      inflightInv (List.foldl cacheStep s l) := by
    intro l
    induction l with
    | nil => intro s hs; exact hs
    | cons e tl ih => intro s hs; exact ih _ (inflightInv_step s e hs)
  exact key es initCache (fun k => by simp [initCache, countKey])

/-! ## Claim theorems -/

/-- C1 counterexample: two concurrent `preloadImage` requests for key `K` —
caller 0 initiates the single underlying load and caller 1 enters the
polling loop.  Even when the load SUCCEEDS, caller 1's promise never
settles: its `checkLoaded` closure tests the `loadedResources` set captured
when it began waiting (here the empty set), which state updates replace
rather than mutate, so its poll is a fixpoint of the state and caller 1 can
never observe the load's outcome — refuting the claim that every caller's
promise settles with the outcome of the single underlying load. -/
theorem preloadImage_unsettled_waiter :
    runCache initCache [.request 0 "K", .request 1 "K", .settle "K" true] =
      ⟨["K"], [], [(1, "K")], [(0, "K")], [(0, true)]⟩ ∧
    pollWaiter ⟨["K"], [], [(1, "K")], [(0, "K")], [(0, true)]⟩ [] 1 "K" =
      ⟨["K"], [], [(1, "K")], [(0, "K")], [(0, true)]⟩ := by
  constructor
  · decide
  · decide

/-- C1 (amended): for every event sequence at most one underlying load for a
key is in flight at a time; a request made while a load is in flight issues
no new load and, when the key is absent from the loaded set it reads (the
set its polling closure then captures), joins the waiters; the initiating
caller's promise settles with the underlying load's outcome — resolved on
success, with the key becoming loaded, and rejected on failure, with the
waiters and the load log untouched; but a waiting caller's promise never
settles at all: its poll tests the captured snapshot, which lacks the key,
so every firing leaves the state unchanged. -/
theorem preloadImage_dedup_settlement (es : List CacheEvent) (k : String)
    (s₁ s₂ s₃ s₄ s₅ : CacheState) (cap : List String) (c₁ c₃ c₅ c₀ c₀f : Nat) :
    countKey (runCache initCache es).inflight k ≤ 1 ∧
    ((lookupKey s₁.inflight k).isSome = true →
      (preloadImage s₁ c₁ k).loads = s₁.loads) ∧
    (k ∉ s₃.loaded → (lookupKey s₃.inflight k).isSome = true →
      (preloadImage s₃ c₃ k).waiters = s₃.waiters ++ [(c₃, k)]) ∧
    (lookupKey s₂.inflight k = some c₀ →
      (settleLoad s₂ k true).outcomes = s₂.outcomes ++ [(c₀, true)] ∧
      k ∈ (settleLoad s₂ k true).loaded) ∧
    (lookupKey s₄.inflight k = some c₀f →
      (settleLoad s₄ k false).outcomes = s₄.outcomes ++ [(c₀f, false)] ∧
      (settleLoad s₄ k false).waiters = s₄.waiters ∧
      (settleLoad s₄ k false).loads = s₄.loads) ∧
    (k ∉ cap → pollWaiter s₅ cap c₅ k = s₅) := by
  refine ⟨inflightInv_runCache es k, ?_, ?_, ?_, ?_, ?_⟩
  · intro h
    rcases Option.isSome_iff_exists.mp h with ⟨c', hc'⟩
    by_cases hl : k ∈ s₁.loaded
    · simp [preloadImage, hl]
    · simp [preloadImage, hl, hc']
  · intro hnl h
    rcases Option.isSome_iff_exists.mp h with ⟨c', hc'⟩
    simp [preloadImage, hnl, hc']
  · intro h
    simp [settleLoad, h]
  · intro h
    simp [settleLoad, h]
  · intro hcap
    simp [pollWaiter, hcap]

theorem preloadImage_dedup_settlement_witness :
    countKey (runCache initCache [.request 0 "K"]).inflight "K" ≤ 1 ∧
    ((lookupKey (CacheState.mk [] [("K", 0)] [] [(0, "K")] []).inflight "K").isSome = true →
      (preloadImage ⟨[], [("K", 0)], [], [(0, "K")], []⟩ 1 "K").loads =
        (CacheState.mk [] [("K", 0)] [] [(0, "K")] []).loads) ∧
    ("K" ∉ (CacheState.mk [] [("K", 0)] [] [(0, "K")] []).loaded →
      (lookupKey (CacheState.mk [] [("K", 0)] [] [(0, "K")] []).inflight "K").isSome = true →
      (preloadImage ⟨[], [("K", 0)], [], [(0, "K")], []⟩ 2 "K").waiters =
        (CacheState.mk [] [("K", 0)] [] [(0, "K")] []).waiters ++ [(2, "K")]) ∧
    (lookupKey (CacheState.mk [] [("K", 0)] [] [(0, "K")] []).inflight "K" = some 0 →
      (settleLoad ⟨[], [("K", 0)], [], [(0, "K")], []⟩ "K" true).outcomes =
        (CacheState.mk [] [("K", 0)] [] [(0, "K")] []).outcomes ++ [(0, true)] ∧
      "K" ∈ (settleLoad ⟨[], [("K", 0)], [], [(0, "K")], []⟩ "K" true).loaded) ∧
    (lookupKey (CacheState.mk [] [("K", 0)] [(1, "K")] [(0, "K")] []).inflight "K" = some 0 →
      (settleLoad ⟨[], [("K", 0)], [(1, "K")], [(0, "K")], []⟩ "K" false).outcomes =
        (CacheState.mk [] [("K", 0)] [(1, "K")] [(0, "K")] []).outcomes ++ [(0, false)] ∧
      (settleLoad ⟨[], [("K", 0)], [(1, "K")], [(0, "K")], []⟩ "K" false).waiters =
        (CacheState.mk [] [("K", 0)] [(1, "K")] [(0, "K")] []).waiters ∧
      (settleLoad ⟨[], [("K", 0)], [(1, "K")], [(0, "K")], []⟩ "K" false).loads =
        (CacheState.mk [] [("K", 0)] [(1, "K")] [(0, "K")] []).loads) ∧
    ("K" ∉ ([] : List String) →
      pollWaiter ⟨["K"], [], [(1, "K")], [(0, "K")], [(0, true)]⟩ [] 1 "K" =
        (CacheState.mk ["K"] [] [(1, "K")] [(0, "K")] [(0, true)])) :=
  preloadImage_dedup_settlement [.request 0 "K"] "K"
    ⟨[], [("K", 0)], [], [(0, "K")], []⟩ ⟨[], [("K", 0)], [], [(0, "K")], []⟩
    ⟨[], [("K", 0)], [], [(0, "K")], []⟩
    ⟨[], [("K", 0)], [(1, "K")], [(0, "K")], []⟩
    ⟨["K"], [], [(1, "K")], [(0, "K")], [(0, true)]⟩ [] 1 2 1 0 0

/-- C2 counterexample: three concurrent requests for key `i` — caller 5
initiates the load, callers 6 and 7 wait.  When the load fails, only caller
5 is rejected: the final state shows waiters 6 and 7 still polling and the
outcome list containing only caller 5's rejection, refuting the claim that
every current waiter's promise is rejected with the failure. -/
theorem settleLoad_failure_waiters_not_rejected :
    runCache initCache [.request 5 "i", .request 6 "i", .request 7 "i", .settle "i" false] =
      ⟨[], [], [(6, "i"), (7, "i")], [(5, "i")], [(5, false)]⟩ := by
  decide

/-- C2 (amended): when the underlying load for a key fails, the initiating
caller's promise is rejected with the failure, the key leaves the loading
state, no retry is issued automatically, and the waiters list is untouched
(waiting callers are not rejected); a subsequent request for the key, made
when it is still unloaded, starts a fresh underlying load. -/
theorem settleLoad_failure_retryable (s : CacheState) (k : String) (c₀ c' : Nat)
    (h : lookupKey s.inflight k = some c₀) (hnl : k ∉ s.loaded) :
    (settleLoad s k false).outcomes = s.outcomes ++ [(c₀, false)] ∧
    countKey (settleLoad s k false).inflight k = 0 ∧
    (settleLoad s k false).waiters = s.waiters ∧
    (settleLoad s k false).loads = s.loads ∧
    (preloadImage (settleLoad s k false) c' k).loads =
      (settleLoad s k false).loads ++ [(c', k)] := by
  have hstate : settleLoad s k false =
      { s with inflight := removeKey s.inflight k, outcomes := s.outcomes ++ [(c₀, false)] } := by
    simp [settleLoad, h]
  refine ⟨by rw [hstate], ?_, by rw [hstate], by rw [hstate], ?_⟩
  · rw [hstate]
    exact countKey_removeKey_self s.inflight k
  · rw [hstate]
    simp only [preloadImage]
    rw [if_neg hnl, lookupKey_removeKey_self]
    simp

theorem settleLoad_failure_retryable_witness :
    (settleLoad ⟨[], [("i", 5)], [(6, "i")], [(5, "i")], []⟩ "i" false).outcomes =
      (CacheState.mk [] [("i", 5)] [(6, "i")] [(5, "i")] []).outcomes ++ [(5, false)] ∧
    countKey (settleLoad ⟨[], [("i", 5)], [(6, "i")], [(5, "i")], []⟩ "i" false).inflight "i" = 0 ∧
    (settleLoad ⟨[], [("i", 5)], [(6, "i")], [(5, "i")], []⟩ "i" false).waiters =
      (CacheState.mk [] [("i", 5)] [(6, "i")] [(5, "i")] []).waiters ∧
    (settleLoad ⟨[], [("i", 5)], [(6, "i")], [(5, "i")], []⟩ "i" false).loads =
      (CacheState.mk [] [("i", 5)] [(6, "i")] [(5, "i")] []).loads ∧
    (preloadImage (settleLoad ⟨[], [("i", 5)], [(6, "i")], [(5, "i")], []⟩ "i" false) 9 "i").loads =
      (settleLoad ⟨[], [("i", 5)], [(6, "i")], [(5, "i")], []⟩ "i" false).loads ++ [(9, "i")] :=
  settleLoad_failure_retryable ⟨[], [("i", 5)], [(6, "i")], [(5, "i")], []⟩ "i" 5 9
    (by decide) (by decide)

/-- C8: a request for a key that is in the Loaded state resolves the
caller's promise immediately and changes nothing else: no underlying load is
issued and the cache state for the key is untouched. -/
theorem preloadImage_loaded_idempotent (s : CacheState) (c : Nat) (k : String)
    (h : k ∈ s.loaded) :
    preloadImage s c k = { s with outcomes := s.outcomes ++ [(c, true)] } := by
  simp [preloadImage, h]

theorem preloadImage_loaded_idempotent_witness :
    preloadImage ⟨["K"], [], [], [(0, "K")], [(0, true)]⟩ 3 "K" =
      ⟨["K"], [], [], [(0, "K")], [(0, true), (3, true)]⟩ :=
  preloadImage_loaded_idempotent ⟨["K"], [], [], [(0, "K")], [(0, true)]⟩ 3 "K" (by decide)

/-- C3 counterexample: with interval 20 ms and calls offset 0, 5, 15, 25 ms
after a first-call base time of 100 (the `lastCall` ref starts at 0, far in
the past of any real clock value, so the first call executes immediately),
the throttled function executes three times — at offset 0 with the first
argument, at offset 20 with the offset-15 call's argument (the trailing
timer scheduled by the coalesced calls fires before the offset-25 call
arrives), and at offset 40 with the offset-25 call's argument — refuting
the claim of exactly two executions. -/
theorem useThrottle_three_executions :
    throttleRun 20 ⟨0, none⟩ [(100, 1), (105, 2), (115, 3), (125, 4)] =
      [(100, 1), (120, 3), (140, 4)] ∧
    (throttleRun 20 ⟨0, none⟩ [(100, 1), (105, 2), (115, 3), (125, 4)]).length ≠ 2 := by
  constructor
  · decide
  · decide

/-- C3 (amended): the call sequence at offsets 0, 5, 15, 25 ms with interval
20 ms produces exactly three executions — at offset 0 with the first call's
argument, at offset 20 with the offset-15 call's argument, and at offset 40
with the offset-25 call's argument.  In general the first call in a window
executes immediately, and each later call within the interval replaces the
pending trailing timer with one scheduled for the end of the current window
(`lastCall + interval`) carrying that call's argument, so the last coalesced
call's argument is never dropped. -/
theorem useThrottle_trailing_spec (s₁ s₂ : ThrottleState) (d₁ d₂ t₁ a₁ t₂ a₂ : Nat) :
    throttleRun 20 ⟨0, none⟩ [(100, 1), (105, 2), (115, 3), (125, 4)] =
      [(100, 1), (120, 3), (140, 4)] ∧
    (d₁ ≤ t₁ - s₁.lastCall →
      throttleCall d₁ s₁ t₁ a₁ = ({ s₁ with lastCall := t₁ }, [(t₁, a₁)])) ∧
    (s₂.lastCall ≤ t₂ → t₂ - s₂.lastCall < d₂ →
      throttleCall d₂ s₂ t₂ a₂ = ({ s₂ with pending := some (s₂.lastCall + d₂, a₂) }, [])) := by
  refine ⟨by decide, ?_, ?_⟩
  · intro h
    simp [throttleCall, h]
  · intro hle hlt
    simp only [throttleCall, if_neg (Nat.not_le.mpr hlt)]
    have : t₂ + (d₂ - (t₂ - s₂.lastCall)) = s₂.lastCall + d₂ := by omega
    rw [this]

theorem useThrottle_trailing_spec_witness :
    throttleRun 20 ⟨0, none⟩ [(100, 1), (105, 2), (115, 3), (125, 4)] =
      [(100, 1), (120, 3), (140, 4)] ∧
    (20 ≤ 130 - (ThrottleState.mk 0 none).lastCall →
      throttleCall 20 ⟨0, none⟩ 130 7 = (⟨130, none⟩, [(130, 7)])) ∧
    ((ThrottleState.mk 100 none).lastCall ≤ 105 → 105 - (ThrottleState.mk 100 none).lastCall < 20 →
      throttleCall 20 ⟨100, none⟩ 105 9 = (⟨100, some (120, 9)⟩, [])) :=
  useThrottle_trailing_spec ⟨0, none⟩ ⟨100, none⟩ 20 20 130 7 105 9

/-- C9: with interval 20 ms, value changes at t = 0, 5, 10 produce exactly
one debounced update, firing at t = 30 with the t = 10 value; and in general
a value change at time `t` while a timer is pending for a strictly later
time `ft` cancels that timer (its value is dropped) and schedules a fresh
timer at `t + d` with the new value, so only the last change before a full
`d`-length silence takes effect. -/
theorem useDebounce_spec (d t ft fv v : Nat) (vs : List (Nat × Nat)) :
    debounceRun 20 none [(0, 1), (5, 2), (10, 3)] = [(30, 3)] ∧
    (t < ft →
      debounceRun d (some (ft, fv)) ((t, v) :: vs) = debounceRun d (some (t + d, v)) vs) := by
  refine ⟨by decide, ?_⟩
  intro h
  simp [debounceRun, Nat.not_le.mpr h]

theorem useDebounce_spec_witness :
    debounceRun 20 none [(0, 1), (5, 2), (10, 3)] = [(30, 3)] ∧
    (5 < 25 →
      debounceRun 20 (some (25, 1)) [(5, 2)] = debounceRun 20 (some (25, 2)) []) :=
  useDebounce_spec 20 5 25 1 2 []

/-- C4: for every input with positive item height and nonnegative overscan,
`getVisibleRange` returns exactly the indices claimed —
`startIndex = max(0, floor(scrollOffset / itemHeight) - overscan)` and
`endIndex = min(itemCount - 1, floor((scrollOffset + containerHeight) /
itemHeight) + overscan)` (the source's inner clamp of the raw end index is
absorbed by the outer one) — together with `totalHeight = itemCount *
itemHeight` and `offsetY = startIndex * itemHeight`; at the concrete input
(itemCount 100, itemHeight 40, containerHeight 400, scrollOffset 800,
overscan 2) this yields startIndex 18, endIndex 32, totalHeight 4000 and
offsetY 720. -/
theorem getVisibleRange_formula (p : VirtualScrollInput) (st : Int)
    (hih : 0 < p.itemHeight) (hov : 0 ≤ p.overscan) :
    (getVisibleRange p st).1 = max 0 (Int.fdiv st p.itemHeight - p.overscan) ∧
    (getVisibleRange p st).2 =
      min (p.itemCount - 1) (Int.fdiv (st + p.containerHeight) p.itemHeight + p.overscan) ∧
    totalHeight p = p.itemCount * p.itemHeight ∧
    offsetY p st = (getVisibleRange p st).1 * p.itemHeight ∧
    getVisibleRange ⟨100, 40, 400, 2⟩ 800 = (18, 32) ∧
    totalHeight ⟨100, 40, 400, 2⟩ = 4000 ∧
    offsetY ⟨100, 40, 400, 2⟩ 800 = 720 := by
  refine ⟨rfl, ?_, rfl, rfl, by decide, by decide, by decide⟩
  have h2 : (getVisibleRange p st).2 =
      min (p.itemCount - 1)
        (min (p.itemCount - 1) (Int.fdiv (st + p.containerHeight) p.itemHeight)
          + p.overscan) := rfl
  rw [h2]
  generalize Int.fdiv (st + p.containerHeight) p.itemHeight = f
  rcases le_total f (p.itemCount - 1) with h | h
  · rw [min_eq_right h]
  · rw [min_eq_left h, min_eq_left (le_add_of_nonneg_right hov),
      min_eq_left (le_trans h (le_add_of_nonneg_right hov))]

theorem getVisibleRange_formula_witness :
    (getVisibleRange ⟨100, 40, 400, 2⟩ 800).1 = max 0 (Int.fdiv 800 40 - 2) ∧
    (getVisibleRange ⟨100, 40, 400, 2⟩ 800).2 = min (100 - 1) (Int.fdiv (800 + 400) 40 + 2) ∧
    totalHeight ⟨100, 40, 400, 2⟩ = 100 * 40 ∧
    offsetY ⟨100, 40, 400, 2⟩ 800 = (getVisibleRange ⟨100, 40, 400, 2⟩ 800).1 * 40 ∧
    getVisibleRange ⟨100, 40, 400, 2⟩ 800 = (18, 32) ∧
    totalHeight ⟨100, 40, 400, 2⟩ = 4000 ∧
    offsetY ⟨100, 40, 400, 2⟩ 800 = 720 :=
  getVisibleRange_formula ⟨100, 40, 400, 2⟩ 800 (by decide) (by decide)

/-- C5 counterexample: the input itemCount 1, itemHeight 1, containerHeight
0, overscan 0 with scrollOffset 1 satisfies every hypothesis of the claim
(itemCount > 0, itemHeight > 0, overscan ≥ 0, containerHeight ≥ 0 and
scrollOffset inside the clamped range [0, itemCount * itemHeight -
containerHeight] = [0, 1]), yet the computed startIndex is 1, outside
[0, itemCount - 1] = [0, 0], and exceeds the computed endIndex 0. -/
theorem getVisibleRange_bounds_counterexample :
    (0 : Int) < 1 ∧ (0 : Int) < 1 ∧ (0 : Int) ≤ 0 ∧ (0 : Int) ≤ 0 ∧
    (0 : Int) ≤ 1 ∧ (1 : Int) ≤ 1 * 1 - 0 ∧
    (getVisibleRange ⟨1, 1, 0, 0⟩ 1).1 = 1 ∧
    (getVisibleRange ⟨1, 1, 0, 0⟩ 1).2 = 0 := by
  decide

/-- C5 (amended): under the claim's hypotheses (itemCount > 0, itemHeight >
0, overscan ≥ 0, containerHeight ≥ 0, scrollOffset in the clamped range)
and additionally excluding the single corner in which containerHeight = 0,
scrollOffset = itemCount * itemHeight and overscan = 0 — that is, assuming
containerHeight > 0, or scrollOffset < itemCount * itemHeight, or
overscan > 0 — both startIndex and endIndex lie in [0, itemCount - 1] and
startIndex ≤ endIndex. -/
theorem getVisibleRange_bounds (p : VirtualScrollInput) (st : Int)
    (hic : 0 < p.itemCount) (hih : 0 < p.itemHeight) (hov : 0 ≤ p.overscan)
    (hch : 0 ≤ p.containerHeight) (hst0 : 0 ≤ st)
    (hstm : st ≤ p.itemCount * p.itemHeight - p.containerHeight)
    (hcorner : 0 < p.containerHeight ∨ st < p.itemCount * p.itemHeight ∨ 0 < p.overscan) :
    0 ≤ (getVisibleRange p st).1 ∧ (getVisibleRange p st).1 ≤ p.itemCount - 1 ∧
    0 ≤ (getVisibleRange p st).2 ∧ (getVisibleRange p st).2 ≤ p.itemCount - 1 ∧
    (getVisibleRange p st).1 ≤ (getVisibleRange p st).2 := by
  obtain ⟨ic, ih, ch, ov⟩ := p
  dsimp only at hic hih hov hch hstm hcorner
  dsimp only
  have h1 : (getVisibleRange ⟨ic, ih, ch, ov⟩ st).1 = max 0 (Int.fdiv st ih - ov) := rfl
  have h2 : (getVisibleRange ⟨ic, ih, ch, ov⟩ st).2 =
      min (ic - 1) (min (ic - 1) (Int.fdiv (st + ch) ih) + ov) := rfl
  rw [Int.fdiv_eq_ediv st (le_of_lt hih)] at h1
  rw [Int.fdiv_eq_ediv (st + ch) (le_of_lt hih)] at h2
  rw [h1, h2]
  have f0 : 0 ≤ st / ih := Int.ediv_nonneg hst0 (le_of_lt hih)
  have f0' : 0 ≤ (st + ch) / ih := Int.ediv_nonneg (by omega) (le_of_lt hih)
  have fmono : st / ih ≤ (st + ch) / ih := Int.ediv_le_ediv hih (by omega)
  have fub : st / ih ≤ ic := by
    have hx : st / ih ≤ (ic * ih) / ih := Int.ediv_le_ediv hih (by omega)
    rwa [Int.mul_ediv_cancel ic (ne_of_gt hih)] at hx
  have key : st / ih ≤ ic - 1 ∨ (st / ih ≤ ic ∧ 1 ≤ ov) := by
    rcases hcorner with h | h | h
    · left
      have hlt : st < ic * ih := by omega
      have := (Int.ediv_lt_iff_lt_mul hih).mpr hlt
      omega
    · left
      have := (Int.ediv_lt_iff_lt_mul hih).mpr h
      omega
    · right
      exact ⟨fub, by omega⟩
  clear h1 h2 hstm hcorner fub
  generalize st / ih = q1 at f0 fmono key
  generalize (st + ch) / ih = q2 at f0' fmono
  omega

theorem getVisibleRange_bounds_witness :
    0 ≤ (getVisibleRange ⟨100, 40, 400, 2⟩ 800).1 ∧
    (getVisibleRange ⟨100, 40, 400, 2⟩ 800).1 ≤ 100 - 1 ∧
    0 ≤ (getVisibleRange ⟨100, 40, 400, 2⟩ 800).2 ∧
    (getVisibleRange ⟨100, 40, 400, 2⟩ 800).2 ≤ 100 - 1 ∧
    (getVisibleRange ⟨100, 40, 400, 2⟩ 800).1 ≤ (getVisibleRange ⟨100, 40, 400, 2⟩ 800).2 :=
  getVisibleRange_bounds ⟨100, 40, 400, 2⟩ 800 (by decide) (by decide) (by decide)
    (by decide) (by decide) (by decide) (Or.inl (by decide))

/-- C6: for every non-empty focusable set, a plain Tab while the active
element is the last focusable element is intercepted (default prevented) and
focus is redirected to the first element; a Shift+Tab while the active
element is the first is intercepted and focus is redirected to the last; any
other Tab event neither prevents the default nor moves focus. -/
theorem trapFocus_wraparound (s : FocusState) (hne : s.focusableElements ≠ []) :
    (s.activeElement = s.focusableElements.getLast? →
      trapFocus s ⟨"Tab", false⟩ = ⟨true, s.focusableElements.head?⟩) ∧
    (s.activeElement = s.focusableElements.head? →
      trapFocus s ⟨"Tab", true⟩ = ⟨true, s.focusableElements.getLast?⟩) ∧
    (s.activeElement ≠ s.focusableElements.getLast? →
      trapFocus s ⟨"Tab", false⟩ = ⟨false, none⟩) ∧
    (s.activeElement ≠ s.focusableElements.head? →
      trapFocus s ⟨"Tab", true⟩ = ⟨false, none⟩) := by
  have hlen : ¬ s.focusableElements.length = 0 := by
    intro h
    exact hne (List.length_eq_zero.mp h)
  refine ⟨fun h => ?_, fun h => ?_, fun h => ?_, fun h => ?_⟩ <;>
    simp [trapFocus, hlen, h]

theorem trapFocus_wraparound_witness :
    ((FocusState.mk [10, 20, 30] (some 30)).activeElement =
        (FocusState.mk [10, 20, 30] (some 30)).focusableElements.getLast? →
      trapFocus ⟨[10, 20, 30], some 30⟩ ⟨"Tab", false⟩ =
        ⟨true, (FocusState.mk [10, 20, 30] (some 30)).focusableElements.head?⟩) ∧
    ((FocusState.mk [10, 20, 30] (some 30)).activeElement =
        (FocusState.mk [10, 20, 30] (some 30)).focusableElements.head? →
      trapFocus ⟨[10, 20, 30], some 30⟩ ⟨"Tab", true⟩ =
        ⟨true, (FocusState.mk [10, 20, 30] (some 30)).focusableElements.getLast?⟩) ∧
    ((FocusState.mk [10, 20, 30] (some 30)).activeElement ≠
        (FocusState.mk [10, 20, 30] (some 30)).focusableElements.getLast? →
      trapFocus ⟨[10, 20, 30], some 30⟩ ⟨"Tab", false⟩ = ⟨false, none⟩) ∧
    ((FocusState.mk [10, 20, 30] (some 30)).activeElement ≠
        (FocusState.mk [10, 20, 30] (some 30)).focusableElements.head? →
      trapFocus ⟨[10, 20, 30], some 30⟩ ⟨"Tab", true⟩ = ⟨false, none⟩) :=
  trapFocus_wraparound ⟨[10, 20, 30], some 30⟩ (by decide)

/-- C7: every `announce` call creates its own fresh live region carrying the
message: two calls with the same message append two regions with distinct
ids, each holding its own copy of the text, and neither call modifies any
pre-existing region; a region created at time `t` is still attached when the
removal timers due by `t` have fired and is detached when the timers due by
`t + 1000` have fired. -/
theorem announce_isolated_channels (s : ScreenReaderState) (t₁ t₂ : Nat) (m p₁ p₂ : String) :
    announce (announce s t₁ m p₁) t₂ m p₂ =
      { announcements := (s.announcements ++ [m]) ++ [m],
        liveRegions := (s.liveRegions ++ [⟨s.nextId, p₁, m, t₁ + 1000⟩]) ++
          [⟨s.nextId + 1, p₂, m, t₂ + 1000⟩],
        nextId := s.nextId + 1 + 1 } ∧
    s.nextId ≠ s.nextId + 1 ∧
    (elapseTo (announce ⟨[], [], 0⟩ t₁ m p₁) t₁).liveRegions = [⟨0, p₁, m, t₁ + 1000⟩] ∧
    (elapseTo (announce ⟨[], [], 0⟩ t₁ m p₁) (t₁ + 1000)).liveRegions = [] := by
  refine ⟨rfl, by omega, ?_, ?_⟩
  · have hlt : t₁ < t₁ + 1000 := by omega
    simp [announce, elapseTo, hlt]
  · have hge : ¬ t₁ + 1000 < t₁ + 1000 := by omega
    simp [announce, elapseTo, hge]

theorem runOps_no_clear_length_mono :
    ∀ (ops : List ScreenReaderOp) (s : ScreenReaderState),
    (∀ op ∈ ops, op ≠ ScreenReaderOp.clearOp) →
    s.announcements.length ≤ (runOps s ops).announcements.length := by
  intro ops
  induction ops with
  | nil => intro s _; exact Nat.le_refl _
  | cons op tl ih =>
    intro s hnc
    have h1 : op ≠ ScreenReaderOp.clearOp := hnc op (List.mem_cons_self op tl)
    have h2 : ∀ o ∈ tl, o ≠ ScreenReaderOp.clearOp :=
      fun o ho => hnc o (List.mem_cons_of_mem op ho)
    have hstep : s.announcements.length ≤ (applyOp s op).announcements.length := by
      cases op with
      | announceOp n' m' p' => simp [applyOp, announce]
      | elapseOp n' => exact Nat.le_refl _
      | clearOp => exact absurd rfl h1
    exact Nat.le_trans hstep (ih (applyOp s op) h2)

/-- C10: `announce` appends the message to the `announcements` list, the
live-region removal timers never change that list, `clearAnnouncements`
empties it, and over any operation sequence containing no
`clearAnnouncements` call the list's length never decreases. -/
theorem announcements_monotone (s s₁ s₂ s₃ : ScreenReaderState)
    (ops : List ScreenReaderOp) (hnc : ∀ op ∈ ops, op ≠ ScreenReaderOp.clearOp)
    (n : Nat) (m p : String) :
    s.announcements.length ≤ (runOps s ops).announcements.length ∧
    (announce s₁ n m p).announcements = s₁.announcements ++ [m] ∧
    (elapseTo s₂ n).announcements = s₂.announcements ∧
    (clearAnnouncements s₃).announcements = [] :=
  ⟨runOps_no_clear_length_mono ops s hnc, rfl, rfl, rfl⟩

theorem announcements_monotone_witness :
    (ScreenReaderState.mk [] [] 0).announcements.length ≤
      (runOps ⟨[], [], 0⟩
        [ScreenReaderOp.announceOp 0 "a" "polite",
         ScreenReaderOp.elapseOp 5]).announcements.length ∧
    (announce ⟨["a"], [], 1⟩ 7 "b" "polite").announcements =
      (ScreenReaderState.mk ["a"] [] 1).announcements ++ ["b"] ∧
    (elapseTo ⟨["a"], [], 1⟩ 7).announcements =
      (ScreenReaderState.mk ["a"] [] 1).announcements ∧
    (clearAnnouncements ⟨["a"], [], 1⟩).announcements = [] :=
  announcements_monotone ⟨[], [], 0⟩ ⟨["a"], [], 1⟩ ⟨["a"], [], 1⟩ ⟨["a"], [], 1⟩
    [ScreenReaderOp.announceOp 0 "a" "polite", ScreenReaderOp.elapseOp 5]
    (by decide) 7 "b" "polite"
